import Mathlib

/-!
Verification of the account health and failure-classification engine of the
proxy. The error-classifier functions live in modules that are not part of
this source tree (only their test suites are), so they are modelled from the
specification; the account-pool manager is embedded from the
MockAccountManager class of the integration test suite, which is the
implementation present in this tree.
-/

/-- Search for the first suffix of `s` that starts with `pat` and return that
suffix; `none` when `pat` occurs nowhere in `s`. Backbone of the substring
matching used by the classifiers. -/
def findFrom (pat : List Char) : List Char → Option (List Char)
  | [] => if pat.isEmpty then some [] else none
  | c :: rest =>
    if pat.isPrefixOf (c :: rest) then some (c :: rest) else findFrom pat rest

/-- `findFrom` succeeds exactly when the pattern is an infix of the text. -/
theorem findFrom_isSome_iff {pat : List Char} : ∀ {s : List Char},
    (findFrom pat s).isSome = true ↔ pat <:+: s := by
  intro s
  induction s with
  | nil =>
    by_cases hp : pat.isEmpty = true
    · have hpat : pat = [] := List.isEmpty_iff.mp hp
      simp [findFrom, hp, hpat]
    · have hpat : pat ≠ [] := fun h => hp (by simp [h])
      simp [findFrom, hp, List.infix_nil, hpat]
  | cons c rest ih =>
    by_cases hp : pat.isPrefixOf (c :: rest) = true
    · have hinf : pat <:+: c :: rest :=
        (List.isPrefixOf_iff_prefix.mp hp).isInfix
      simp [findFrom, hp, hinf]
    · have hnp : ¬ pat <+: c :: rest :=
        fun h => hp (List.isPrefixOf_iff_prefix.mpr h)
      simp only [findFrom, hp]
      rw [if_neg (by simp [hp]), ih, List.infix_cons_iff]
      simp [hnp]

/-- An infix of a mapped list is the image of an infix of the original. -/
theorem infix_map_iff {α β : Type} {f : α → β} {P : List β} {l : List α} :
    P <:+: l.map f ↔ ∃ w, w.map f = P ∧ w <:+: l := by
  constructor
  · rintro ⟨pre, post, h⟩
    have h1 : l.map f = pre ++ (P ++ post) := by simpa using h.symm
    rcases List.map_eq_append_iff.mp h1 with ⟨l1, l2, rfl, h2, h3⟩
    rcases List.map_eq_append_iff.mp h3 with ⟨w, l3, rfl, h4, h5⟩
    exact ⟨w, h4, l1, l3, by simp⟩
  · rintro ⟨w, hw, hinf⟩
    exact hw ▸ hinf.map f

/-- Lower-case a character list; used for case-insensitive matching. -/
def toLowerL (l : List Char) : List Char := l.map Char.toLower

/-- Case-sensitive substring test. -/
def containsSub (t pat : String) : Bool := (findFrom pat.data t.data).isSome

/-- Case-insensitive substring test. -/
def containsCI (t pat : String) : Bool :=
  (findFrom (toLowerL pat.data) (toLowerL t.data)).isSome

/-- The pattern occurs verbatim somewhere in the text. -/
def OccursSub (pat t : String) : Prop := pat.data <:+: t.data

/-- Some spelling of the pattern (any letter case) occurs in the text. -/
def OccursCI (pat t : String) : Prop :=
  ∃ w : List Char, toLowerL w = toLowerL pat.data ∧ w <:+: t.data

theorem containsSub_iff {t pat : String} :
    containsSub t pat = true ↔ OccursSub pat t := findFrom_isSome_iff

theorem containsCI_iff {t pat : String} :
    containsCI t pat = true ↔ OccursCI pat t := by
  rw [containsCI, findFrom_isSome_iff]
  exact infix_map_iff

/- Marker strings used by the classifiers (from the spec and the fixtures of
the test suites). -/

def vrMarker : String := "VALIDATION_REQUIRED"

def adMarker : String := "ACCOUNT_DISABLED"

def udMarker : String := "USER_DISABLED"

def invalidGrantMarker : String := "invalid_grant"

def capacityMarker : String := "MODEL_CAPACITY_EXHAUSTED"

def afeCode : String := "ACCOUNT_FORBIDDEN"

def afeName : String := "AccountForbiddenError"

def errName : String := "Error"

def emptyStr : String := ""

/-- Modelled from the spec: the body-side marker test of `isValidationRequired`
(src/cloudcode/rate-limit-state.js, absent from this tree). The spec: the body
contains one of a narrow set of high-signal markers — a validation-required
phrase, an account-disabled phrase, or a user-disabled phrase — in free text or
in a structured error-detail reason field (a serialized body carries that field
as text), matched case-insensitively. -/
def hasValidationMarker (t : String) : Bool :=
  containsCI t vrMarker || containsCI t adMarker || containsCI t udMarker

/-- Modelled from the spec: `isValidationRequired` of
src/cloudcode/rate-limit-state.js (absent from this tree). Null or empty input
yields no match; generic forbidden or permission-denied phrasing without a
marker must not match. -/
def isValidationRequired : Option String → Bool
  | none => false
  | some t => hasValidationMarker t

/-- Modelled from the spec: `isPermanentAuthFailure` of
src/cloudcode/rate-limit-state.js (absent from this tree). The body indicates a
revoked, expired or invalid credential grant; per the spec it must NOT match
ValidationRequired even when both kinds of text co-occur. -/
def isPermanentAuthFailure : Option String → Bool
  | none => false
  | some t => containsCI t invalidGrantMarker && !hasValidationMarker t

/-- Modelled from the spec: `isModelCapacityExhausted` of
src/cloudcode/rate-limit-state.js (absent from this tree). A capacity-exhausted
reason code distinct from generic rate limiting; per the spec it must not match
ValidationRequired. -/
def isModelCapacityExhausted : Option String → Bool
  | none => false
  | some t => containsCI t capacityMarker && !hasValidationMarker t

/-- Modelled from the spec: the shape of a JavaScript Error value as used by
src/errors.js (absent from this tree): a name, a message, and the ad-hoc
fields the error classes attach. -/
structure JsError where
  name : String
  message : String
  code : Option String
  accountEmail : Option String
  retryable : Bool
deriving DecidableEq

/-- Modelled from the spec: the `AccountForbiddenError` class of src/errors.js
(absent from this tree): an explicit internal error kind carrying the
offending account email, with code ACCOUNT_FORBIDDEN and retryable false. -/
def AccountForbiddenError (message : String) (accountEmail : Option String) : JsError :=
  { name := afeName, message := message, code := some afeCode
    accountEmail := accountEmail, retryable := false }

/-- A plain JavaScript `Error` with only a message. -/
def mkError (message : String) : JsError :=
  { name := errName, message := message, code := none
    accountEmail := none, retryable := true }

/-- Modelled from the spec: `isAccountForbiddenError` of src/errors.js
(absent from this tree). True only for values constructed as the explicit
AccountForbiddenError kind (recognised by its code) or whose message carries
the specific ACCOUNT_FORBIDDEN marker token. -/
def isAccountForbiddenError (e : JsError) : Bool :=
  e.code == some afeCode || containsSub e.message afeCode

def verifDomain : String := "https://accounts.google.com/"

/-- Characters that are payload punctuation when trailing a scanned URL:
closing bracket, angle bracket, brace, double or single quote, period. -/
def stripChar (c : Char) : Bool :=
  c == ']' || c == '>' || c == '\x7d' || c == '\x22' || c == '\x27' || c == '.'

/-- Modelled from the spec: `extractVerificationUrl` of
src/cloudcode/rate-limit-state.js (absent from this tree). Scans the text for
the first occurrence of a URL of the account-verification domain, takes the
candidate up to whitespace and trims trailing payload punctuation, preserving
internal dots. The structured-JSON preference of the spec coincides with this
scan on serialized bodies, where the metadata URL occurs as text. Null, empty
or URL-free input yields null. -/
def extractVerificationUrl : Option String → Option String
  | none => none
  | some t =>
    match findFrom verifDomain.data t.data with
    | none => none
    | some s =>
      let run := s.takeWhile (fun c => !c.isWhitespace)
      let url := (run.reverse.dropWhile stripChar).reverse
      if url.isEmpty then none else some (String.mk url)

/-!
Account pool manager, embedded from the MockAccountManager class committed in
the integration test suite (the only pool-manager implementation in this
tree). Timestamps are naturals; `Date.now()` becomes an explicit `now`
argument.
-/

/-- One account record, with the fields the MockAccountManager constructor
initialises (its constructor leaves `invalidAt` unset, hence `none`). The
rate-limit map is an association list from model id to `resetAt`. -/
structure Account where
  email : String
  isInvalid : Bool
  invalidReason : Option String
  verifyUrl : Option String
  invalidAt : Option Nat
  modelRateLimits : List (String × Nat)
  consecutiveFailures : Nat
  enabled : Bool
deriving DecidableEq

/-- The initial record the MockAccountManager constructor builds per entry. -/
def initAccount (email : String) : Account :=
  { email := email, isInvalid := false, invalidReason := none
    verifyUrl := none, invalidAt := none, modelRateLimits := []
    consecutiveFailures := 0, enabled := true }

/-- One entry of the mutation log (`this._log`). -/
inductive LogEntry where
  | markInvalid (email reason : String) (verifyUrl : Option String)
  | clearInvalid (email : String)
  | markRateLimited (email : String) (resetMs : Nat) (model : String)
  | notifySuccess (email model : String)
  | notifyFailure (email model : String)
  | notifyRateLimit (email model : String)
deriving DecidableEq

/-- The state a MockAccountManager instance owns: the account list, the
mutation log, and the `_savedToDisk` counter. -/
structure ManagerState where
  accounts : List Account
  log : List LogEntry
  savedToDisk : Nat
deriving DecidableEq

/-- The MockAccountManager constructor over a list of configured emails. -/
def mkManager (emails : List String) : ManagerState :=
  { accounts := emails.map initAccount, log := [], savedToDisk := 0 }

/-- In-place mutation of the first account matching a predicate, as the
JavaScript `find`-then-assign idiom does. -/
def updateFirst (p : Account → Bool) (f : Account → Account) :
    List Account → List Account
  | [] => []
  | a :: rest => if p a then f a :: rest else a :: updateFirst p f rest

/-- `getAvailableAccounts(model)` of the MockAccountManager: filters on
validity and the enabled flag; the model argument is not consulted. -/
def getAvailableAccounts (st : ManagerState) (model : String) : List Account :=
  st.accounts.filter (fun a => !a.isInvalid && (a.enabled != false))

/-- `getAllAccounts()` of the MockAccountManager. -/
def getAllAccounts (st : ManagerState) : List Account := st.accounts

/-- `isAllAccountsInvalid()` of the MockAccountManager. -/
def isAllAccountsInvalid (st : ManagerState) : Bool :=
  let enabled := st.accounts.filter (fun a => a.enabled != false)
  decide (0 < enabled.length) && enabled.all (fun a => a.isInvalid)

/-- The JavaScript `verifyUrl || null` coercion: any falsy value, including
the empty string, becomes null. -/
def orNull (v : Option String) : Option String :=
  match v with
  | none => none
  | some s => if s = emptyStr then none else some s

/-- `markInvalid(email, reason, verifyUrl)` of the MockAccountManager. -/
def markInvalid (st : ManagerState) (email reason : String)
    (verifyUrl : Option String) (now : Nat) : Bool × ManagerState :=
  match st.accounts.find? (fun a => a.email == email) with
  | none => (false, st)
  | some _ =>
    (true,
      { st with
          accounts := updateFirst (fun a => a.email == email)
            (fun a =>
              { a with
                  isInvalid := true
                  invalidReason := some reason
                  verifyUrl := orNull verifyUrl
                  invalidAt := some now })
            st.accounts
          log := st.log ++ [LogEntry.markInvalid email reason verifyUrl] })

/-- `clearInvalid(email)` of the MockAccountManager. It resets `isInvalid`,
`invalidReason` and `verifyUrl` and bumps the save counter; it does not touch
`invalidAt`. -/
def clearInvalid (st : ManagerState) (email : String) : Bool × ManagerState :=
  match st.accounts.find? (fun a => a.email == email) with
  | none => (false, st)
  | some _ =>
    (true,
      { st with
          accounts := updateFirst (fun a => a.email == email)
            (fun a =>
              { a with
                  isInvalid := false
                  invalidReason := none
                  verifyUrl := none })
            st.accounts
          log := st.log ++ [LogEntry.clearInvalid email]
          savedToDisk := st.savedToDisk + 1 })

/-- `markRateLimited(email, resetMs, model)` of the MockAccountManager: it
only records the call in the log. -/
def markRateLimited (st : ManagerState) (email : String) (resetMs : Nat)
    (model : String) : ManagerState :=
  { st with log := st.log ++ [LogEntry.markRateLimited email resetMs model] }

/-- `notifySuccess(account, model)` of the MockAccountManager (log only). -/
def notifySuccess (st : ManagerState) (email model : String) : ManagerState :=
  { st with log := st.log ++ [LogEntry.notifySuccess email model] }

/-- `notifyFailure(account, model)` of the MockAccountManager (log only). -/
def notifyFailure (st : ManagerState) (email model : String) : ManagerState :=
  { st with log := st.log ++ [LogEntry.notifyFailure email model] }

/-- `notifyRateLimit(account, model)` of the MockAccountManager (log only). -/
def notifyRateLimit (st : ManagerState) (email model : String) : ManagerState :=
  { st with log := st.log ++ [LogEntry.notifyRateLimit email model] }

/-- `saveToDisk()` of the MockAccountManager. -/
def saveToDisk (st : ManagerState) : ManagerState :=
  { st with savedToDisk := st.savedToDisk + 1 }

/-- The direct `enabled` field write the test suite performs on an account of
the pool. -/
def setEnabled (st : ManagerState) (email : String) (b : Bool) : ManagerState :=
  { st with
    accounts := updateFirst (fun a => a.email == email)
      (fun a => { a with enabled := b }) st.accounts }

/-- States a MockAccountManager instance can actually be in: built by the
constructor and evolved through its mutators (plus the direct enabled-flag
write the tests perform). -/
inductive Reachable : ManagerState → Prop where
  | init (emails : List String) : Reachable (mkManager emails)
  | stepMarkInvalid {st : ManagerState} (h : Reachable st)
      (email reason : String) (v : Option String) (now : Nat) :
      Reachable (markInvalid st email reason v now).2
  | stepClearInvalid {st : ManagerState} (h : Reachable st) (email : String) :
      Reachable (clearInvalid st email).2
  | stepMarkRateLimited {st : ManagerState} (h : Reachable st)
      (email : String) (resetMs : Nat) (model : String) :
      Reachable (markRateLimited st email resetMs model)
  | stepNotifySuccess {st : ManagerState} (h : Reachable st)
      (email model : String) : Reachable (notifySuccess st email model)
  | stepNotifyFailure {st : ManagerState} (h : Reachable st)
      (email model : String) : Reachable (notifyFailure st email model)
  | stepNotifyRateLimit {st : ManagerState} (h : Reachable st)
      (email model : String) : Reachable (notifyRateLimit st email model)
  | stepSaveToDisk {st : ManagerState} (h : Reachable st) :
      Reachable (saveToDisk st)
  | stepSetEnabled {st : ManagerState} (h : Reachable st)
      (email : String) (b : Bool) : Reachable (setEnabled st email b)

/-- The spec-side description of `getAvailableAccounts(model)`: written from
the specification sentence, to be compared with the source function. An entry
for the model whose reset time has not yet passed excludes the account. -/
def getAvailableAccountsSpec (st : ManagerState) (model : String) (now : Nat) :
    List Account :=
  st.accounts.filter (fun a =>
    (a.enabled != false) && !a.isInvalid &&
      (match (a.modelRateLimits.find? (fun p => p.1 == model)).map
          (fun p => p.2) with
       | none => true
       | some resetAt => decide (resetAt ≤ now)))

/-! Helper lemmas about the pool-manager embedding. -/

/-- Boolean device: the `!== false` test of the source equals the flag. -/
theorem bne_false_eq (b : Bool) : (b != false) = b := by cases b <;> rfl

/-- Members of `updateFirst p f l` come from `l`, directly or through `f`. -/
theorem mem_updateFirst {p : Account → Bool} {f : Account → Account} :
    ∀ {l : List Account} {b : Account}, b ∈ updateFirst p f l →
      b ∈ l ∨ ∃ a, a ∈ l ∧ b = f a := by
  intro l
  induction l with
  | nil => intro b h; exact absurd h (by simp [updateFirst])
  | cons a rest ih =>
    intro b h
    rw [updateFirst] at h
    by_cases hp : p a = true
    · rw [if_pos hp] at h
      rcases List.mem_cons.mp h with h1 | h1
      · exact Or.inr ⟨a, List.mem_cons_self a rest, h1⟩
      · exact Or.inl (List.mem_cons_of_mem a h1)
    · rw [if_neg hp] at h
      rcases List.mem_cons.mp h with h1 | h1
      · exact Or.inl (h1 ▸ List.mem_cons_self a rest)
      · rcases ih h1 with h2 | ⟨x, hx, hbx⟩
        · exact Or.inl (List.mem_cons_of_mem a h2)
        · exact Or.inr ⟨x, List.mem_cons_of_mem a hx, hbx⟩

/-- Looking up an email after an email-preserving in-place update of the
first matching account yields the updated image of the old lookup. -/
theorem find?_updateFirst (email : String) (f : Account → Account)
    (l : List Account) (hf : ∀ a, (f a).email = a.email) :
    (updateFirst (fun a => a.email == email) f l).find?
        (fun a => a.email == email) =
      (l.find? (fun a => a.email == email)).map f := by
  induction l with
  | nil => rfl
  | cons a rest ih =>
    by_cases h : (a.email == email) = true
    · have h2 : ((f a).email == email) = true := by rw [hf]; exact h
      simp [updateFirst, h, h2, List.find?_cons]
    · have h3 : (a.email == email) = false := by
        revert h; cases a.email == email <;> simp
      have h4 : ((f a).email == email) = false := by rw [hf]; exact h3
      simp [updateFirst, h3, h4, List.find?_cons, ih]

/-- The JavaScript falsy coercion never stores the empty string. -/
theorem orNull_ne_empty (v : Option String) : orNull v ≠ some emptyStr := by
  cases v with
  | none => simp [orNull]
  | some s =>
    rw [orNull]
    by_cases h : s = emptyStr
    · rw [if_pos h]; simp
    · rw [if_neg h]; intro hc; exact h (by injection hc)

/-- Invariant of every reachable manager state: no account ever stores the
empty string as its verification URL. -/
theorem reachable_verifyUrl_ne_empty {st : ManagerState} (h : Reachable st) :
    ∀ a : Account, a ∈ st.accounts → a.verifyUrl ≠ some emptyStr := by
  induction h with
  | init emails =>
    intro a ha
    rcases List.mem_map.mp ha with ⟨e, _, rfl⟩
    simp [initAccount]
  | stepMarkInvalid h email reason v now ih =>
    intro a ha
    revert ha
    rw [markInvalid]
    cases hf : ManagerState.accounts _ |>.find? (fun x => x.email == email) with
    | none => exact fun ha => ih a ha
    | some x =>
      intro ha
      rcases mem_updateFirst ha with h1 | ⟨b, _, hb⟩
      · exact ih a h1
      · rw [hb]; exact orNull_ne_empty v
  | stepClearInvalid h email ih =>
    intro a ha
    revert ha
    rw [clearInvalid]
    cases hf : ManagerState.accounts _ |>.find? (fun x => x.email == email) with
    | none => exact fun ha => ih a ha
    | some x =>
      intro ha
      rcases mem_updateFirst ha with h1 | ⟨b, _, hb⟩
      · exact ih a h1
      · rw [hb]; simp
  | stepMarkRateLimited h email resetMs model ih => exact fun a ha => ih a ha
  | stepNotifySuccess h email model ih => exact fun a ha => ih a ha
  | stepNotifyFailure h email model ih => exact fun a ha => ih a ha
  | stepNotifyRateLimit h email model ih => exact fun a ha => ih a ha
  | stepSaveToDisk h ih => exact fun a ha => ih a ha
  | stepSetEnabled h email b ih =>
    intro a ha
    rcases mem_updateFirst ha with h1 | ⟨x, hx, hb⟩
    · exact ih a h1
    · rw [hb]; exact ih x hx

/-! Fixture values drawn from the test suites. -/

def emailA : String := "a@test.com"

def emailB : String := "b@test.com"

def modelM : String := "gemini-pro"

def reasonR : String := "Account requires verification"

def urlU : String := "https://accounts.google.com/signin/continue?sarp=1"

/-- A pool whose single account is enabled and valid but holds a live
rate-limit window for `modelM` (reset at time 1000). -/
def rlState : ManagerState :=
  { accounts := [{ initAccount emailA with modelRateLimits := [(modelM, 1000)] }]
    log := []
    savedToDisk := 0 }

/-- C1, counterexample: at time 0 the account of `rlState` still sits inside
its rate-limit window for `modelM`, so the spec-side description excludes it,
yet `getAvailableAccounts` returns it — the source filters only on validity
and the enabled flag and never consults `modelRateLimits`. -/
theorem getAvailableAccounts_rateLimit_counterexample :
    getAvailableAccounts rlState modelM ≠ getAvailableAccountsSpec rlState modelM 0 := by
  decide

/-- C1 (amended): `getAvailableAccounts(model)` returns exactly the accounts
with `enabled !== false` and `isInvalid === false`, in pool order (it is a
sublist of the pool); the model argument and `modelRateLimits` are not
consulted. -/
theorem getAvailableAccounts_characterization :
    ∀ (st : ManagerState) (model : String),
      List.Sublist (getAvailableAccounts st model) st.accounts ∧
        ∀ a : Account, a ∈ getAvailableAccounts st model ↔
          (a ∈ st.accounts ∧ a.isInvalid = false ∧ a.enabled = true) := by
  intro st model
  constructor
  · exact List.filter_sublist st.accounts
  · intro a
    rw [getAvailableAccounts, List.mem_filter]
    constructor
    · rintro ⟨hmem, hcond⟩
      refine ⟨hmem, ?_, ?_⟩ <;> revert hcond <;>
        cases a.isInvalid <;> cases a.enabled <;> simp
    · rintro ⟨hmem, h1, h2⟩
      exact ⟨hmem, by simp [h1, h2]⟩

/-- The boolean `isAllAccountsInvalid` unfolded to a logical description. -/
theorem isAllAccountsInvalid_iff (st : ManagerState) :
    isAllAccountsInvalid st = true ↔
      ((∃ a, a ∈ st.accounts ∧ a.enabled = true) ∧
        ∀ a, a ∈ st.accounts → a.enabled = true → a.isInvalid = true) := by
  rw [isAllAccountsInvalid]
  simp only [bne_false_eq, Bool.and_eq_true, decide_eq_true_eq,
    List.length_pos_iff_exists_mem, List.all_eq_true, List.mem_filter]
  constructor
  · rintro ⟨⟨a, ha, he⟩, hall⟩
    exact ⟨⟨a, ha, he⟩, fun b hb hbe => hall b ⟨hb, hbe⟩⟩
  · rintro ⟨⟨a, ha, he⟩, hall⟩
    exact ⟨⟨a, ha, he⟩, fun b hb => hall b hb.1 hb.2⟩

/-- C2: `isAllAccountsInvalid()` is true iff the set of enabled accounts is
non-empty and every enabled account is invalid; in particular a pool with no
enabled account yields false, and disabled accounts neither count as healthy
nor block the verdict. -/
theorem isAllAccountsInvalid_characterization :
    (∀ st : ManagerState,
        isAllAccountsInvalid st = true ↔
          ((∃ a, a ∈ st.accounts ∧ a.enabled = true) ∧
            ∀ a, a ∈ st.accounts → a.enabled = true → a.isInvalid = true)) ∧
      ∀ st : ManagerState, (∀ a, a ∈ st.accounts → a.enabled = false) →
        isAllAccountsInvalid st = false := by
  constructor
  · exact isAllAccountsInvalid_iff
  · intro st h
    cases hb : isAllAccountsInvalid st with
    | false => rfl
    | true =>
      rcases (isAllAccountsInvalid_iff st).mp hb with ⟨⟨a, ha, he⟩, _⟩
      rw [h a ha] at he
      exact absurd he (by simp)

/-- A pool whose only account has been disabled by the direct flag write. -/
def disabledState : ManagerState := setEnabled (mkManager [emailA]) emailA false

/-- C2, witness: the all-disabled pool answers false. -/
theorem isAllAccountsInvalid_characterization_witness :
    isAllAccountsInvalid disabledState = false :=
  isAllAccountsInvalid_characterization.2 disabledState (by decide)

/-- C4, counterexample: after `markInvalid` (at time 5) followed by
`clearInvalid`, the account keeps `invalidAt = 5` — `clearInvalid` resets
only `isInvalid`, `invalidReason` and `verifyUrl`, so `invalidAt` is not
restored to null as the claim states. -/
theorem markInvalid_clearInvalid_invalidAt_counterexample :
    (((clearInvalid (markInvalid (mkManager [emailA]) emailA reasonR
              (some urlU) 5).2 emailA).2.accounts.find?
          (fun a => a.email == emailA)).map Account.invalidAt = some (some 5)) ∧
      (((clearInvalid (markInvalid (mkManager [emailA]) emailA reasonR
              (some urlU) 5).2 emailA).2.accounts.find?
          (fun a => a.email == emailA)).map Account.invalidAt ≠ some none) := by
  constructor
  · decide
  · decide

/-- C4 (amended): `markInvalid(email, reason, url)` followed by
`clearInvalid(email)` restores `isInvalid = false`, `invalidReason = null`
and `verifyUrl = null` exactly; `invalidAt`, set by `markInvalid`, is not
cleared and keeps the `markInvalid` timestamp. -/
theorem markInvalid_clearInvalid_roundTrip :
    ∀ (st : ManagerState) (email reason : String) (url : Option String)
      (now : Nat) (a0 : Account),
      st.accounts.find? (fun a => a.email == email) = some a0 →
      ((clearInvalid (markInvalid st email reason url now).2 email).2).accounts.find?
          (fun a => a.email == email) =
        some { a0 with
                isInvalid := false
                invalidReason := none
                verifyUrl := none
                invalidAt := some now } := by
  intro st email reason url now a0 h
  have hmark :
      ((markInvalid st email reason url now).2).accounts.find?
          (fun a => a.email == email) =
        some { a0 with
                isInvalid := true
                invalidReason := some reason
                verifyUrl := orNull url
                invalidAt := some now } := by
    have hrw := find?_updateFirst email
      (fun a => { a with isInvalid := true, invalidReason := some reason, verifyUrl := orNull url, invalidAt := some now })
      st.accounts (fun a => rfl)
    simp only [markInvalid, h]
    rw [hrw, h]
    rfl
  have hrw2 := find?_updateFirst email
    (fun a => { a with isInvalid := false, invalidReason := none, verifyUrl := none })
    ((markInvalid st email reason url now).2).accounts (fun a => rfl)
  simp only [clearInvalid, hmark]
  rw [hrw2, hmark]
  rfl

/-- C4, witness: the round trip on a concrete one-account pool. -/
theorem markInvalid_clearInvalid_roundTrip_witness :
    ((clearInvalid (markInvalid (mkManager [emailA]) emailA reasonR
            (some urlU) 5).2 emailA).2).accounts.find?
        (fun a => a.email == emailA) =
      some { initAccount emailA with
              isInvalid := false
              invalidReason := none
              verifyUrl := none
              invalidAt := some 5 } :=
  markInvalid_clearInvalid_roundTrip (mkManager [emailA]) emailA reasonR
    (some urlU) 5 (initAccount emailA) (by decide)

/-- C8: on an unknown email both mutators return false and leave the whole
manager state (accounts, log and save counter) untouched. -/
theorem unknown_email_noop :
    ∀ (st : ManagerState) (email reason : String) (url : Option String)
      (now : Nat),
      st.accounts.find? (fun a => a.email == email) = none →
      markInvalid st email reason url now = (false, st) ∧
        clearInvalid st email = (false, st) := by
  intro st email reason url now h
  constructor
  · rw [markInvalid, h]
  · rw [clearInvalid, h]

/-- C8, witness: mutating an email that is not in the pool. -/
theorem unknown_email_noop_witness :
    markInvalid (mkManager [emailA]) emailB reasonR none 0 =
        (false, mkManager [emailA]) ∧
      clearInvalid (mkManager [emailA]) emailB = (false, mkManager [emailA]) :=
  unknown_email_noop (mkManager [emailA]) emailB reasonR none 0 (by decide)

/-- C9, counterexample: `markRateLimited` on a present email stores nothing —
the account keeps an empty `modelRateLimits` map instead of an entry with
`resetAt = 1000` for the model, contradicting the claim. -/
theorem markRateLimited_counterexample :
    (((markRateLimited (mkManager [emailA]) emailA 1000 modelM).accounts.find?
          (fun a => a.email == emailA)).map
          (fun a =>
            (a.modelRateLimits.find? (fun p => p.1 == modelM)).map
              (fun p => p.2)) = some none) ∧
      (((markRateLimited (mkManager [emailA]) emailA 1000 modelM).accounts.find?
          (fun a => a.email == emailA)).map
          (fun a =>
            (a.modelRateLimits.find? (fun p => p.1 == modelM)).map
              (fun p => p.2)) ≠ some (some 1000)) := by
  constructor
  · decide
  · decide

/-- C9 (amended): `markRateLimited(email, resetMs, model)` of the source only
appends a log entry recording the call; every account (in particular
`modelRateLimits` and `isInvalid`) and the save counter are left unchanged. -/
theorem markRateLimited_log_only :
    ∀ (st : ManagerState) (email : String) (resetMs : Nat) (model : String),
      (markRateLimited st email resetMs model).accounts = st.accounts ∧
        (markRateLimited st email resetMs model).savedToDisk = st.savedToDisk ∧
        (markRateLimited st email resetMs model).log =
          st.log ++ [LogEntry.markRateLimited email resetMs model] := by
  intro st email resetMs model
  exact ⟨rfl, rfl, rfl⟩

/-- C10: `markInvalid` coerces a null or empty verification URL to null for
the stored field, and consequently no account of any reachable manager state
ever stores the empty string as its `verifyUrl`. -/
theorem markInvalid_verifyUrl_normalization :
    (∀ (st : ManagerState) (email reason : String) (now : Nat)
        (v : Option String) (a0 : Account),
        (v = none ∨ v = some emptyStr) →
        st.accounts.find? (fun a => a.email == email) = some a0 →
        ((markInvalid st email reason v now).2).accounts.find?
            (fun a => a.email == email) =
          some { a0 with
                  isInvalid := true
                  invalidReason := some reason
                  verifyUrl := none
                  invalidAt := some now }) ∧
      ∀ st : ManagerState, Reachable st →
        ∀ a : Account, a ∈ st.accounts → a.verifyUrl ≠ some emptyStr := by
  constructor
  · intro st email reason now v a0 hv h
    have hnull : orNull v = none := by
      rcases hv with rfl | rfl
      · rfl
      · simp [orNull]
    have hrw := find?_updateFirst email
      (fun a => { a with isInvalid := true, invalidReason := some reason, verifyUrl := orNull v, invalidAt := some now })
      st.accounts (fun a => rfl)
    simp only [markInvalid, h]
    rw [hrw, h]
    simp [hnull]
  · intro st h
    exact reachable_verifyUrl_ne_empty h

/-- C10, witness: marking with an empty-string URL on a concrete pool stores
null. -/
theorem markInvalid_verifyUrl_normalization_witness :
    ((markInvalid (mkManager [emailA]) emailA reasonR (some emptyStr) 5).2).accounts.find?
        (fun a => a.email == emailA) =
      some { initAccount emailA with
              isInvalid := true
              invalidReason := some reasonR
              verifyUrl := none
              invalidAt := some 5 } :=
  markInvalid_verifyUrl_normalization.1 (mkManager [emailA]) emailA reasonR 5
    (some emptyStr) (initAccount emailA) (Or.inr rfl) (by decide)

/-! Classifier fixtures from the test suites (braces written as escapes). -/

def validationBody : String := "\x7b\"error\":\x7b\"code\":403,\"message\":\"VALIDATION_REQUIRED\",\"status\":\"PERMISSION_DENIED\"\x7d\x7d"

def accountDisabledBody : String := "\x7b\"error\":\x7b\"code\":403,\"message\":\"account_disabled: This account has been disabled\"\x7d\x7d"

def userDisabledBody : String := "user_disabled: This account has been suspended"

def mixedCaseBody : String := "Validation_Required"

def genericForbiddenBody : String := "\x7b\"error\":\x7b\"code\":403,\"message\":\"Forbidden: some generic error\"\x7d\x7d"

def genericPermissionBody : String := "\x7b\"error\":\x7b\"code\":403,\"message\":\"The caller does not have permission\",\"status\":\"PERMISSION_DENIED\"\x7d\x7d"

def genericAccessBody : String := "\x7b\"error\":\x7b\"code\":403,\"message\":\"Access denied for this account\"\x7d\x7d"

def invalidGrantBody : String := "invalid_grant: Token has been expired or revoked"

def invalidGrantStructuredBody : String := "\x7b\"error\":\x7b\"message\":\"invalid_grant: Token has been expired or revoked\"\x7d\x7d"

def capacityBody : String := "\x7b\"error\":\x7b\"code\":429,\"message\":\"MODEL_CAPACITY_EXHAUSTED\"\x7d\x7d"

def plainValidationMsg : String := "403 VALIDATION_REQUIRED: Please complete validation"

def plainPermissionMsg : String := "API error 403: PERMISSION_DENIED"

def plainForbiddenMsg : String := "API error 403: Forbidden"

def rateLimitMsg : String := "429 RESOURCE_EXHAUSTED"

def authMsg : String := "AUTH_INVALID: token expired"

def serverErrMsg : String := "API error 500: Internal server error"

def genericMsg : String := "Something went wrong"

def testMsg : String := "Test forbidden"

def testEmail : String := "test@example.com"

/-- C3: `isValidationRequired` is false on null input, true exactly when one
of the three markers occurs in the body in some letter case, and false on the
generic 403 bodies of the test suite that carry only Forbidden,
permission-denied or access-denied phrasing. -/
theorem isValidationRequired_characterization :
    isValidationRequired none = false ∧
      (∀ t : String,
        isValidationRequired (some t) = true ↔
          (OccursCI vrMarker t ∨ OccursCI adMarker t ∨ OccursCI udMarker t)) ∧
      isValidationRequired (some mixedCaseBody) = true ∧
      isValidationRequired (some genericForbiddenBody) = false ∧
      isValidationRequired (some genericPermissionBody) = false ∧
      isValidationRequired (some genericAccessBody) = false := by
  refine ⟨rfl, ?_, rfl, rfl, rfl, rfl⟩
  intro t
  show hasValidationMarker t = true ↔ _
  rw [hasValidationMarker, Bool.or_eq_true, Bool.or_eq_true,
    containsCI_iff, containsCI_iff, containsCI_iff, or_assoc]

/-- C5: an input classified ValidationRequired is classified neither
PermanentAuthFailure nor ModelCapacityExhausted. -/
theorem validationRequired_exclusive :
    ∀ s : Option String, isValidationRequired s = true →
      isPermanentAuthFailure s = false ∧ isModelCapacityExhausted s = false := by
  intro s h
  cases s with
  | none => exact absurd h (by simp [isValidationRequired])
  | some t =>
    have h1 : hasValidationMarker t = true := h
    exact ⟨by simp [isPermanentAuthFailure, h1],
      by simp [isModelCapacityExhausted, h1]⟩

/-- C5, witness: the VALIDATION_REQUIRED body of the test suite. -/
theorem validationRequired_exclusive_witness :
    isValidationRequired (some validationBody) = true ∧
      isPermanentAuthFailure (some validationBody) = false ∧
      isModelCapacityExhausted (some validationBody) = false :=
  ⟨rfl, (validationRequired_exclusive (some validationBody) rfl).1,
    (validationRequired_exclusive (some validationBody) rfl).2⟩

/-- C7: `isAccountForbiddenError` is true only for values carrying the
ACCOUNT_FORBIDDEN code or the marker token in their message; it accepts every
constructed AccountForbiddenError and rejects the plain 403, forbidden,
permission-denied, VALIDATION_REQUIRED, rate-limit, auth and generic error
values of the test suite. -/
theorem isAccountForbiddenError_spec :
    (∀ e : JsError, isAccountForbiddenError e = true →
        e.code = some afeCode ∨ OccursSub afeCode e.message) ∧
      (∀ (msg : String) (em : Option String),
        isAccountForbiddenError (AccountForbiddenError msg em) = true) ∧
      isAccountForbiddenError (mkError plainValidationMsg) = false ∧
      isAccountForbiddenError (mkError plainPermissionMsg) = false ∧
      isAccountForbiddenError (mkError plainForbiddenMsg) = false ∧
      isAccountForbiddenError (mkError rateLimitMsg) = false ∧
      isAccountForbiddenError (mkError authMsg) = false ∧
      isAccountForbiddenError (mkError serverErrMsg) = false ∧
      isAccountForbiddenError (mkError genericMsg) = false := by
  refine ⟨?_, ?_, rfl, rfl, rfl, rfl, rfl, rfl, rfl⟩
  · intro e h
    rw [isAccountForbiddenError, Bool.or_eq_true] at h
    rcases h with h | h
    · exact Or.inl (eq_of_beq h)
    · exact Or.inr (containsSub_iff.mp h)
  · intro msg em
    simp [isAccountForbiddenError, AccountForbiddenError]

/-- C7, witness: a constructed AccountForbiddenError satisfies the
characterization through its code. -/
theorem isAccountForbiddenError_spec_witness :
    (AccountForbiddenError testMsg (some testEmail)).code = some afeCode ∨
      OccursSub afeCode (AccountForbiddenError testMsg (some testEmail)).message :=
  isAccountForbiddenError_spec.1 (AccountForbiddenError testMsg (some testEmail))
    (by rfl)

def tBracket : String := "Visit [https://accounts.google.com/signin/continue?sarp=1&scc=1] to verify"

def tAngle : String := "Visit <https://accounts.google.com/signin/continue?sarp=1&scc=1> to verify"

def tBrace : String := "\x7b\"url\":\"https://accounts.google.com/signin/continue?sarp=1&scc=1\"\x7d"

def tDots : String := "Visit https://accounts.google.com/signin/continue?sarp=1&scc=1&continue=https://aistudio.google.com to verify"

def tPeriod : String := "Please verify your account at https://accounts.google.com/signin/continue?sarp=1."

def noUrlBody : String := "\x7b\"error\":\x7b\"code\":403,\"message\":\"Generic permission denied\",\"status\":\"PERMISSION_DENIED\"\x7d\x7d"

def cleanUrl1 : String := "https://accounts.google.com/signin/continue?sarp=1&scc=1"

def cleanUrl2 : String := "https://accounts.google.com/signin/continue?sarp=1&scc=1&continue=https://aistudio.google.com"

def cleanUrl3 : String := "https://accounts.google.com/signin/continue?sarp=1"

/-- A successful `findFrom` returns a suffix that starts with the pattern. -/
theorem findFrom_eq_some_prefix {pat : List Char} :
    ∀ {s r : List Char}, findFrom pat s = some r → pat <+: r := by
  intro s
  induction s with
  | nil =>
    intro r h
    rw [findFrom] at h
    by_cases hp : pat.isEmpty = true
    · rw [if_pos hp] at h
      injection h with h2
      rw [← h2, List.isEmpty_iff.mp hp]
    · rw [if_neg hp] at h
      exact absurd h (by simp)
  | cons c rest ih =>
    intro r h
    rw [findFrom] at h
    by_cases hp : pat.isPrefixOf (c :: rest) = true
    · rw [if_pos hp] at h
      injection h with h2
      rw [← h2]
      exact List.isPrefixOf_iff_prefix.mp hp
    · rw [if_neg hp] at h
      exact ih h

/-- The last character of the string is not a strip character (vacuously true
for an empty string). -/
def lastNotStripped (u : String) : Bool :=
  !stripChar (u.data.getLast?.getD ('h' : Char))

/-- Trailing trimming never leaves a strip character at the end. -/
theorem lastNotStripped_strip (m : List Char) :
    lastNotStripped (String.mk ((m.dropWhile stripChar).reverse)) = true := by
  show (!stripChar (((m.dropWhile stripChar).reverse).getLast?.getD ('h' : Char))) = true
  rw [List.getLast?_reverse]
  cases hh : (m.dropWhile stripChar).head? with
  | none => rfl
  | some c =>
    have hcp := List.head?_dropWhile_not stripChar m
    rw [hh] at hcp
    have hcp2 : stripChar c = false := hcp
    show (!stripChar c) = true
    rw [hcp2]
    rfl

/-- When the verification-domain pattern is found, the extractor returns the
trimmed candidate, which is never empty. -/
theorem extract_some_branch {t : String} {s : List Char}
    (hf : findFrom verifDomain.data t.data = some s) :
    extractVerificationUrl (some t) =
        some (String.mk
          (((s.takeWhile fun c => !c.isWhitespace).reverse.dropWhile
              stripChar).reverse)) ∧
      (((s.takeWhile fun c => !c.isWhitespace).reverse.dropWhile
          stripChar).reverse) ≠ [] := by
  obtain ⟨tl, htl⟩ := findFrom_eq_some_prefix hf
  have hhead : s.head? = some ('h' : Char) := by rw [← htl]; rfl
  cases s with
  | nil => exact absurd hhead (by simp)
  | cons c s2 =>
    have hc : c = ('h' : Char) := by
      have := hhead
      simp only [List.head?] at this
      injection this
    subst hc
    have hne :
        ((((('h' : Char) :: s2).takeWhile fun c => !c.isWhitespace).reverse.dropWhile
            stripChar).reverse) ≠ [] := by
      intro hnil
      have h0 :
          (((('h' : Char) :: s2).takeWhile fun c => !c.isWhitespace).reverse.dropWhile
              stripChar) = [] := by
        have h1 := congrArg List.reverse hnil
        simpa using h1
      have hmem : ('h' : Char) ∈
          ((('h' : Char) :: s2).takeWhile fun c => !c.isWhitespace).reverse := by
        rw [List.takeWhile_cons, if_pos (by decide)]
        simp
      have h2 := List.dropWhile_eq_nil_iff.mp h0 _ hmem
      exact absurd h2 (by decide)
    refine ⟨?_, hne⟩
    simp only [extractVerificationUrl, hf]
    rw [if_neg (fun hc => hne (List.isEmpty_iff.mp hc))]

/-- C6: the URL extractor returns null on null, empty and URL-free inputs
(exactly when no verification-domain candidate occurs), never leaves a
trailing strip character on a returned URL, and on the concrete payloads of
the test suites trims the trailing bracket, angle bracket, brace, quote and
sentence period while preserving the internal dots of the nested
continue parameter. -/
theorem extractVerificationUrl_spec :
    extractVerificationUrl none = none ∧
      extractVerificationUrl (some emptyStr) = none ∧
      (∀ t : String,
        extractVerificationUrl (some t) = none ↔ ¬ OccursSub verifDomain t) ∧
      (∀ (t u : String), extractVerificationUrl (some t) = some u →
        u.data ≠ [] ∧ lastNotStripped u = true) ∧
      extractVerificationUrl (some tBracket) = some cleanUrl1 ∧
      extractVerificationUrl (some tAngle) = some cleanUrl1 ∧
      extractVerificationUrl (some tBrace) = some cleanUrl1 ∧
      extractVerificationUrl (some tDots) = some cleanUrl2 ∧
      extractVerificationUrl (some tPeriod) = some cleanUrl3 ∧
      extractVerificationUrl (some noUrlBody) = none := by
  refine ⟨rfl, rfl, ?_, ?_, rfl, rfl, rfl, rfl, rfl, rfl⟩
  · intro t
    cases hf : findFrom verifDomain.data t.data with
    | none =>
      have hocc : ¬ OccursSub verifDomain t := by
        rw [OccursSub, ← findFrom_isSome_iff]
        simp [hf]
      simp only [extractVerificationUrl, hf]
      simp [hocc]
    | some s =>
      have hocc : OccursSub verifDomain t :=
        findFrom_isSome_iff.mp (by simp [hf])
      rw [(extract_some_branch hf).1]
      simp [hocc]
  · intro t u h
    cases hf : findFrom verifDomain.data t.data with
    | none =>
      simp only [extractVerificationUrl, hf] at h
      exact absurd h (by simp)
    | some s =>
      rw [(extract_some_branch hf).1] at h
      injection h with h2
      rw [← h2]
      exact ⟨(extract_some_branch hf).2, lastNotStripped_strip _⟩

/-- C6, witness: the URL extracted from the bracketed payload is non-empty
and does not end in a strip character. -/
theorem extractVerificationUrl_spec_witness :
    cleanUrl1.data ≠ [] ∧ lastNotStripped cleanUrl1 = true :=
  extractVerificationUrl_spec.2.2.2.1 tBracket cleanUrl1 (by rfl)

def afeMessageBody : String := "ACCOUNT_FORBIDDEN: validation required"

/-- The spec-modelled classifiers reproduce the verdicts the repository test
suites assert on their fixtures. -/
theorem classifier_matches_repo_fixtures :
    isValidationRequired (some validationBody) = true ∧
      isValidationRequired (some accountDisabledBody) = true ∧
      isValidationRequired (some userDisabledBody) = true ∧
      isValidationRequired (some capacityBody) = false ∧
      isValidationRequired (some invalidGrantBody) = false ∧
      isValidationRequired (some invalidGrantStructuredBody) = false ∧
      isPermanentAuthFailure (some invalidGrantBody) = true ∧
      isPermanentAuthFailure (some invalidGrantStructuredBody) = true ∧
      isPermanentAuthFailure (some plainValidationMsg) = false ∧
      isModelCapacityExhausted (some capacityBody) = true ∧
      isAccountForbiddenError (AccountForbiddenError testMsg (some testEmail)) = true ∧
      isAccountForbiddenError (mkError afeMessageBody) = true ∧
      extractVerificationUrl (some noUrlBody) = none :=
  ⟨rfl, rfl, rfl, rfl, rfl, rfl, rfl, rfl, rfl, rfl, rfl, rfl, rfl⟩
